import Mathlib

/-!
Verification development for the darlingserver dual-keyed registry
(src/internal-include/darlingserver/registry.hpp).

The registry is a template class holding two hash maps over shared
pointers to entries:
  - `_map   : unordered_map<Entry::ID,   shared_ptr<Entry>>`
  - `_nsmap : unordered_map<Entry::NSID, shared_ptr<Entry>>`
together with a readers-writer lock and a thread-local flag
`_registeringWithLockHeld`.

Shallow embedding choices:
  - A `shared_ptr<Entry>` handle is modelled by the structure `Entry`,
    whose `ref` field stands for the pointer value, so that Lean equality
    of `Entry` values is pointer identity of handles (two distinct
    objects are given distinct `ref`s).
  - The two unordered maps are modelled as functions `K → Option V`;
    `operator[]` assignment is `mapInsert` and `erase` is `mapErase`.
  - The readers-writer lock serialises every operation (each public
    method holds the lock for its whole body), so concurrent executions
    are modelled as sequential compositions of whole operations.
  - The thread-local flag `_registeringWithLockHeld` of the calling
    thread is carried in the state as `registeringWithLockHeld`.
-/

namespace DarlingServer

/-- Functional update of a map, modelling `m[k] = v` on
`std::unordered_map` (insert-or-assign). -/
def mapInsert {K V : Type} [DecidableEq K] (m : K → Option V) (k : K) (v : V) :
    K → Option V :=
  fun k' => if k' = k then some v else m k'

/-- Functional removal of a key, modelling `m.erase(it)` where `it` is the
iterator found at key `k`. -/
def mapErase {K V : Type} [DecidableEq K] (m : K → Option V) (k : K) :
    K → Option V :=
  fun k' => if k' = k then none else m k'

/-- A handle to a registrable entry (a `shared_ptr<Entry>` in the source).
`ref` models the pointer value: equality of `Entry` values is pointer
identity. `id` and `nsid` model the accessors `entry->id()` and
`entry->nsid()`, immutable while registered. -/
structure Entry (ID NSID : Type) where
  ref : Nat
  id : ID
  nsid : NSID
deriving DecidableEq, Repr

/-- The state of a `Registry<Entry>`: the two maps `_map` and `_nsmap`,
plus the calling thread's `_registeringWithLockHeld` flag. -/
structure Registry (ID NSID : Type) where
  map : ID → Option (Entry ID NSID)
  nsmap : NSID → Option (Entry ID NSID)
  registeringWithLockHeld : Bool

section Ops

variable {ID NSID : Type} [DecidableEq ID] [DecidableEq NSID]

/-- Registry::registerIfAbsent (registry.hpp lines 53-67), with a total
factory. Returns the final state, the returned handle, and whether the
factory was invoked (true exactly on the create path). The exclusive
lock is held for the whole body, the factory included. -/
def Registry.registerIfAbsent (r : Registry ID NSID) (nsid : NSID)
    (entryFactory : Unit → Entry ID NSID) :
    Registry ID NSID × Entry ID NSID × Bool :=
  match r.nsmap nsid with
  | some e => (r, e, false)
  | none =>
    let entry := entryFactory ()
    ({ r with
       registeringWithLockHeld := false,
       map := mapInsert r.map entry.id entry,
       nsmap := mapInsert r.nsmap entry.nsid entry },
     entry, true)

/-- Registry::registerIfAbsent with a factory that may exit abnormally
(modelled by `Except`). Faithful to the source's manual flag toggling:
the flag is set to `true` before the factory call (line 61) and reset to
`false` only on the line after it (line 63); when the factory exits
abnormally the exception propagates (nothing in the body catches it) and
the reset is never executed, while the `unique_lock` releases the mutex
by RAII. The returned state carries the thread's flag after the call. -/
def Registry.registerIfAbsentE (r : Registry ID NSID) (nsid : NSID)
    (entryFactory : Unit → Except Unit (Entry ID NSID)) :
    Registry ID NSID × Except Unit (Entry ID NSID) :=
  match r.nsmap nsid with
  | some e => (r, Except.ok e)
  | none =>
    match entryFactory () with
    | Except.error x => ({ r with registeringWithLockHeld := true }, Except.error x)
    | Except.ok entry =>
      ({ r with
         registeringWithLockHeld := false,
         map := mapInsert r.map entry.id entry,
         nsmap := mapInsert r.nsmap entry.nsid entry },
       Except.ok entry)

/-- Registry::registerIfAbsent with a factory that may return a null
handle. The source dereferences the factory result unconditionally
(`entry->id()`, `entry->nsid()`, lines 64-65) with no null check; the
`none` branch of the match on the factory result is that unguarded
dereference (undefined behaviour in the source), so the whole result is
`none` exactly when it is reached. -/
def Registry.registerIfAbsentN (r : Registry ID NSID) (nsid : NSID)
    (entryFactory : Unit → Option (Entry ID NSID)) :
    Option (Registry ID NSID × Entry ID NSID) :=
  match r.nsmap nsid with
  | some e => some (r, e)
  | none =>
    match entryFactory () with
    | none => none
    | some entry =>
      some ({ r with
              registeringWithLockHeld := false,
              map := mapInsert r.map entry.id entry,
              nsmap := mapInsert r.nsmap entry.nsid entry },
            entry)

/-- Registry::registerEntry (registry.hpp lines 69-79): fails iff
`replace` is false and either key is already present; otherwise writes
the entry into both maps. -/
def Registry.registerEntry (r : Registry ID NSID) (entry : Entry ID NSID)
    (replace : Bool) : Registry ID NSID × Bool :=
  if !replace && ((r.map entry.id).isSome || (r.nsmap entry.nsid).isSome) then
    (r, false)
  else
    ({ r with
       map := mapInsert r.map entry.id entry,
       nsmap := mapInsert r.nsmap entry.nsid entry },
     true)

/-- Registry::unregisterEntryByID (registry.hpp lines 81-100): find the
entry by internal ID, cross-look-up its namespace ID, and only when both
are found erase both entries. -/
def Registry.unregisterEntryByID (r : Registry ID NSID) (id : ID) :
    Registry ID NSID × Bool :=
  match r.map id with
  | none => (r, false)
  | some entry =>
    match r.nsmap entry.nsid with
    | none => (r, false)
    | some _ =>
      ({ r with
         map := mapErase r.map id,
         nsmap := mapErase r.nsmap entry.nsid },
       true)

/-- Registry::unregisterEntryByNSID (registry.hpp lines 102-121): the
symmetric removal keyed by namespace ID. -/
def Registry.unregisterEntryByNSID (r : Registry ID NSID) (nsid : NSID) :
    Registry ID NSID × Bool :=
  match r.nsmap nsid with
  | none => (r, false)
  | some entry =>
    match r.map entry.id with
    | none => (r, false)
    | some _ =>
      ({ r with
         map := mapErase r.map entry.id,
         nsmap := mapErase r.nsmap nsid },
       true)

/-- Registry::unregisterEntry (registry.hpp lines 130-148): identity
checked removal; the comparison `(*it).second != entry` on shared
pointers is pointer comparison, i.e. `Entry` equality here. -/
def Registry.unregisterEntry (r : Registry ID NSID) (entry : Entry ID NSID) :
    Registry ID NSID × Bool :=
  match r.map entry.id, r.nsmap entry.nsid with
  | some x, some x2 =>
    if x = entry && x2 = entry then
      ({ r with
         map := mapErase r.map entry.id,
         nsmap := mapErase r.nsmap entry.nsid },
       true)
    else
      (r, false)
  | some _, none => (r, false)
  | none, _ => (r, false)

/-- Registry::lookupEntryByID (registry.hpp lines 150-163): non-mutating
find in `_map`. Lock behaviour is modelled by
`Registry.lookupAcquiresShared` below. -/
def Registry.lookupEntryByID (r : Registry ID NSID) (id : ID) :
    Option (Entry ID NSID) :=
  r.map id

/-- Whether a lookup on the calling thread acquires the shared (read)
section: both lookups defer the `shared_lock` and call `lock.lock()`
only when `_registeringWithLockHeld` is false (registry.hpp lines
151-155 and 166-170). -/
def Registry.lookupAcquiresShared (r : Registry ID NSID) : Bool :=
  !r.registeringWithLockHeld

end Ops

/-- Registry::lookupEntryByNSID as written in the source (registry.hpp
lines 165-178): the parameter is declared at type `ID` — not `NSID` —
and is then used as an `_nsmap` key. Lean has no implicit conversions,
so the faithful embedding is only well-typed when the two key types
coincide; in C++ the member only compiles for instantiations whose `ID`
converts to `NSID`. -/
def Registry.lookupEntryByNSID {ID : Type} [DecidableEq ID]
    (r : Registry ID ID) (nsid : ID) : Option (Entry ID ID) :=
  r.nsmap nsid

/-- Modelled from the spec: the namespace-ID lookup as the spec
describes it ("lookupByNamespaceID(n) accepts n at the namespace-ID
type" with the two key types independent). This is the intended
signature that the source's `ID nsid` parameter deviates from; the body
is the same `_nsmap` find. -/
def Registry.lookupEntryByNSIDIntended {ID NSID : Type} [DecidableEq NSID]
    (r : Registry ID NSID) (nsid : NSID) : Option (Entry ID NSID) :=
  r.nsmap nsid

section InvariantAndOps

variable {ID NSID : Type} [DecidableEq ID] [DecidableEq NSID]

/-- Invariant I1 over a pair of maps: every handle present in one map
sits there under its own key and the identity-equal handle is present in
the other map under the entry's own other key ("keyed by that entity's
own current internal ID and namespace ID respectively"). -/
def I1maps (m : ID → Option (Entry ID NSID)) (nm : NSID → Option (Entry ID NSID)) :
    Prop :=
  (∀ i, ∀ e ∈ m i, e.id = i ∧ nm e.nsid = some e) ∧
  (∀ n, ∀ e ∈ nm n, e.nsid = n ∧ m e.id = some e)

/-- Invariant I1 (index consistency) of a registry state. -/
def Registry.I1 (r : Registry ID NSID) : Prop :=
  I1maps r.map r.nsmap

instance (r : Registry ID NSID) [Fintype ID] [Fintype NSID]
    [DecidableEq (Entry ID NSID)] : Decidable r.I1 := by
  unfold Registry.I1 I1maps
  infer_instance

/-- An entry is registered when both maps hold it, each under the
entry's own key. -/
def Registry.registered (r : Registry ID NSID) (e : Entry ID NSID) : Prop :=
  r.map e.id = some e ∧ r.nsmap e.nsid = some e

/-- One registry operation, for reasoning about arbitrary sequences of
subsequent calls. -/
inductive RegOp (ID NSID : Type) where
  | registerIfAbsent (nsid : NSID) (factory : Unit → Entry ID NSID)
  | registerEntry (e : Entry ID NSID) (replace : Bool)
  | unregisterEntryByID (i : ID)
  | unregisterEntryByNSID (n : NSID)
  | unregisterEntry (e : Entry ID NSID)

/-- State transition of one operation (the returned value is dropped). -/
def Registry.applyOp (r : Registry ID NSID) : RegOp ID NSID → Registry ID NSID
  | RegOp.registerIfAbsent nsid f => (r.registerIfAbsent nsid f).1
  | RegOp.registerEntry e rep => (r.registerEntry e rep).1
  | RegOp.unregisterEntryByID i => (r.unregisterEntryByID i).1
  | RegOp.unregisterEntryByNSID n => (r.unregisterEntryByNSID n).1
  | RegOp.unregisterEntry e => (r.unregisterEntry e).1

/-- An operation leaves entry `E` registered when it does not target
either of `E`'s keys: this is the structural reading of "E is not
unregistered (nor displaced) by the operation". -/
def Registry.opAvoids (r : Registry ID NSID) (E : Entry ID NSID) :
    RegOp ID NSID → Prop
  | RegOp.registerIfAbsent nsid f =>
      (∃ x, r.nsmap nsid = some x) ∨
      ((f ()).id ≠ E.id ∧ (f ()).nsid ≠ E.nsid)
  | RegOp.registerEntry e _ => e.id ≠ E.id ∧ e.nsid ≠ E.nsid
  | RegOp.unregisterEntryByID i =>
      i ≠ E.id ∧ ∀ x ∈ r.map i, x.nsid ≠ E.nsid
  | RegOp.unregisterEntryByNSID n =>
      n ≠ E.nsid ∧ ∀ x ∈ r.nsmap n, x.id ≠ E.id
  | RegOp.unregisterEntry e => e ≠ E

/-- A whole sequence of operations avoids `E`, each one judged in the
state it actually runs in. -/
def Registry.opsAvoid (E : Entry ID NSID) :
    Registry ID NSID → List (RegOp ID NSID) → Prop
  | _, [] => True
  | r, op :: ops => r.opAvoids E op ∧ Registry.opsAvoid E (r.applyOp op) ops

/-- Run a batch of registerIfAbsent calls for the same namespace key,
one after the other (the exclusive lock serialises concurrent calls, so
an arbitrary interleaving is an arbitrary order of whole calls).
Returns the final state and, per call, the returned handle and whether
that call invoked its factory. -/
def Registry.runCreates (r : Registry ID NSID) (nsid : NSID) :
    List (Unit → Entry ID NSID) →
      Registry ID NSID × List (Entry ID NSID × Bool)
  | [] => (r, [])
  | f :: fs =>
    let step := r.registerIfAbsent nsid f
    let rest := Registry.runCreates step.1 nsid fs
    (rest.1, (step.2.1, step.2.2) :: rest.2)

end InvariantAndOps

section ConcreteInstances

/-- The empty registry over three-valued key spaces, for concrete
evaluations. -/
def emptyReg : Registry (Fin 3) (Fin 3) := ⟨fun _ => none, fun _ => none, false⟩

/-- Concrete entry A with internal ID 1 and namespace ID 2. -/
def entA : Entry (Fin 3) (Fin 3) := ⟨0, 1, 2⟩

/-- Concrete entry B with internal ID 2 and the same namespace ID 2 as
`entA`: it collides with A on exactly one of the two keys. -/
def entB : Entry (Fin 3) (Fin 3) := ⟨1, 2, 2⟩

/-- Concrete entry sharing `entA`'s internal ID 1 but carrying the
distinct namespace ID 0 (the B{1,200} of the spec's Scenario B). -/
def entB5 : Entry (Fin 3) (Fin 3) := ⟨1, 1, 0⟩

/-- The registry containing exactly `entA`. -/
def regA : Registry (Fin 3) (Fin 3) := (emptyReg.registerEntry entA false).1

/-- A factory producing a fresh entry with internal ID 0 and namespace
ID 0. -/
def fac0 : Unit → Entry (Fin 3) (Fin 3) := fun _ => ⟨5, 0, 0⟩

/-- A second, distinct factory for the same namespace key 0. -/
def fac1 : Unit → Entry (Fin 3) (Fin 3) := fun _ => ⟨6, 1, 0⟩

/-- A factory that exits abnormally. -/
def facThrow : Unit → Except Unit (Entry (Fin 3) (Fin 3)) := fun _ => Except.error ()

/-- A factory that returns normally. -/
def facOk : Unit → Except Unit (Entry (Fin 3) (Fin 3)) := fun _ => Except.ok ⟨4, 0, 0⟩

/-- A factory returning a null handle. -/
def facNull : Unit → Option (Entry (Fin 3) (Fin 3)) := fun _ => none

/-- A factory returning a non-null handle. -/
def facSome : Unit → Option (Entry (Fin 3) (Fin 3)) := fun _ => some ⟨4, 0, 0⟩

/-- An entry over genuinely independent key types (internal IDs `Fin 1`,
namespace IDs `Fin 2`), registered under namespace ID 1. -/
def entC7 : Entry (Fin 1) (Fin 2) := ⟨0, 0, 1⟩

/-- A registry over independent key types holding `entC7` in the
namespace map. -/
def regC7 : Registry (Fin 1) (Fin 2) :=
  ⟨fun _ => none, mapInsert (fun _ => none) 1 entC7, false⟩

end ConcreteInstances

section MapLemmas

variable {K V : Type} [DecidableEq K]

theorem mapInsert_self {m : K → Option V} {k : K} {v : V} :
    mapInsert m k v k = some v := by
  simp [mapInsert]

theorem mapInsert_ne {m : K → Option V} {k : K} {v : V} {k' : K} (h : k' ≠ k) :
    mapInsert m k v k' = m k' := by
  simp [mapInsert, h]

theorem mapErase_self {m : K → Option V} {k : K} :
    mapErase m k k = none := by
  simp [mapErase]

theorem mapErase_ne {m : K → Option V} {k : K} {k' : K} (h : k' ≠ k) :
    mapErase m k k' = m k' := by
  simp [mapErase, h]

end MapLemmas

section I1Lemmas

variable {ID NSID : Type} [DecidableEq ID] [DecidableEq NSID]

/-- Writing an entry into both maps under its own keys preserves I1,
provided any entry already sitting under either of those keys agrees
with the new entry on the other key as well (no partial collision). -/
theorem I1maps_replace {m : ID → Option (Entry ID NSID)}
    {nm : NSID → Option (Entry ID NSID)}
    (h : I1maps m nm) (e : Entry ID NSID)
    (h1 : ∀ x ∈ m e.id, x.nsid = e.nsid)
    (h2 : ∀ x ∈ nm e.nsid, x.id = e.id) :
    I1maps (mapInsert m e.id e) (mapInsert nm e.nsid e) := by
  simp only [I1maps, Option.mem_def] at h h1 h2 ⊢
  obtain ⟨hA, hB⟩ := h
  constructor
  · intro i x hx
    by_cases hi : i = e.id
    · subst hi
      rw [mapInsert_self] at hx
      injection hx with hx
      subst hx
      exact ⟨rfl, mapInsert_self⟩
    · rw [mapInsert_ne hi] at hx
      obtain ⟨hxid, hxns⟩ := hA i x hx
      refine ⟨hxid, ?_⟩
      by_cases hn : x.nsid = e.nsid
      · exfalso
        rw [hn] at hxns
        have hxe : x.id = e.id := h2 x hxns
        rw [hxid] at hxe
        exact hi hxe
      · rw [mapInsert_ne hn]
        exact hxns
  · intro n x hx
    by_cases hn : n = e.nsid
    · subst hn
      rw [mapInsert_self] at hx
      injection hx with hx
      subst hx
      exact ⟨rfl, mapInsert_self⟩
    · rw [mapInsert_ne hn] at hx
      obtain ⟨hxns, hxid⟩ := hB n x hx
      refine ⟨hxns, ?_⟩
      by_cases hi : x.id = e.id
      · exfalso
        rw [hi] at hxid
        have hxe : x.nsid = e.nsid := h1 x hxid
        rw [hxns] at hxe
        exact hn hxe
      · rw [mapInsert_ne hi]
        exact hxid

/-- Writing an entry into both maps under fresh keys preserves I1. -/
theorem I1maps_insert {m : ID → Option (Entry ID NSID)}
    {nm : NSID → Option (Entry ID NSID)}
    (h : I1maps m nm) (e : Entry ID NSID)
    (h1 : m e.id = none) (h2 : nm e.nsid = none) :
    I1maps (mapInsert m e.id e) (mapInsert nm e.nsid e) := by
  refine I1maps_replace h e ?_ ?_
  · intro x hx
    rw [Option.mem_def, h1] at hx
    cases hx
  · intro x hx
    rw [Option.mem_def, h2] at hx
    cases hx

/-- Erasing an entry that is registered in both maps under its own keys
preserves I1. -/
theorem I1maps_erase {m : ID → Option (Entry ID NSID)}
    {nm : NSID → Option (Entry ID NSID)}
    (h : I1maps m nm) (e : Entry ID NSID)
    (hm : m e.id = some e) (hn : nm e.nsid = some e) :
    I1maps (mapErase m e.id) (mapErase nm e.nsid) := by
  simp only [I1maps, Option.mem_def] at h ⊢
  obtain ⟨hA, hB⟩ := h
  constructor
  · intro i x hx
    by_cases hi : i = e.id
    · subst hi
      rw [mapErase_self] at hx
      cases hx
    · rw [mapErase_ne hi] at hx
      obtain ⟨hxid, hxns⟩ := hA i x hx
      refine ⟨hxid, ?_⟩
      by_cases hnn : x.nsid = e.nsid
      · exfalso
        rw [hnn, hn] at hxns
        injection hxns with hex
        rw [← hex] at hxid
        exact hi hxid.symm
      · rw [mapErase_ne hnn]
        exact hxns
  · intro n x hx
    by_cases hnn : n = e.nsid
    · subst hnn
      rw [mapErase_self] at hx
      cases hx
    · rw [mapErase_ne hnn] at hx
      obtain ⟨hxns, hxid⟩ := hB n x hx
      refine ⟨hxns, ?_⟩
      by_cases hi : x.id = e.id
      · exfalso
        rw [hi, hm] at hxid
        injection hxid with hex
        rw [← hex] at hxns
        exact hnn hxns.symm
      · rw [mapErase_ne hi]
        exact hxid

end I1Lemmas

section OpLemmas

variable {ID NSID : Type} [DecidableEq ID] [DecidableEq NSID]

/-- registerIfAbsent preserves I1 when the factory's entry carries the
requested namespace ID and an unregistered internal ID. -/
theorem I1_registerIfAbsent (r : Registry ID NSID) (nsid : NSID)
    (f : Unit → Entry ID NSID) (h : r.I1)
    (hns : (f ()).nsid = nsid) (hid : r.map (f ()).id = none) :
    ((r.registerIfAbsent nsid f).1).I1 := by
  unfold Registry.registerIfAbsent
  split
  · exact h
  · rename_i hm
    exact I1maps_insert h (f ()) hid (by rw [hns]; exact hm)

/-- registerEntry with replace = false preserves I1 unconditionally. -/
theorem I1_registerEntry_false (r : Registry ID NSID) (e : Entry ID NSID)
    (h : r.I1) : ((r.registerEntry e false).1).I1 := by
  unfold Registry.registerEntry
  split
  · exact h
  · rename_i hcond
    simp only [Bool.not_false, Bool.true_and, Bool.or_eq_true,
      not_or, Bool.not_eq_true, Option.not_isSome,
      Option.isNone_iff_eq_none] at hcond
    exact I1maps_insert h e hcond.1 hcond.2

/-- registerEntry with replace = true preserves I1 when the new entry
does not partially collide with any registered entry. -/
theorem I1_registerEntry_true (r : Registry ID NSID) (e : Entry ID NSID)
    (h : r.I1)
    (h1 : ∀ x ∈ r.map e.id, x.nsid = e.nsid)
    (h2 : ∀ x ∈ r.nsmap e.nsid, x.id = e.id) :
    ((r.registerEntry e true).1).I1 := by
  unfold Registry.registerEntry
  split
  · rename_i hcond
    simp at hcond
  · exact I1maps_replace h e h1 h2

/-- unregisterEntryByID preserves I1 unconditionally. -/
theorem I1_unregisterEntryByID (r : Registry ID NSID) (i : ID) (h : r.I1) :
    ((r.unregisterEntryByID i).1).I1 := by
  unfold Registry.unregisterEntryByID
  split
  · exact h
  · rename_i entry hmap
    split
    · exact h
    · rename_i x hns
      obtain ⟨hid, hnse⟩ := h.1 i entry (by rw [Option.mem_def]; exact hmap)
      have herase := I1maps_erase h entry (by rw [hid]; exact hmap) hnse
      rw [hid] at herase
      exact herase

/-- unregisterEntryByNSID preserves I1 unconditionally. -/
theorem I1_unregisterEntryByNSID (r : Registry ID NSID) (n : NSID) (h : r.I1) :
    ((r.unregisterEntryByNSID n).1).I1 := by
  unfold Registry.unregisterEntryByNSID
  split
  · exact h
  · rename_i entry hns
    split
    · exact h
    · rename_i x hmap
      obtain ⟨hnsid, hme⟩ := h.2 n entry (by rw [Option.mem_def]; exact hns)
      have herase := I1maps_erase h entry hme (by rw [hnsid]; exact hns)
      rw [hnsid] at herase
      exact herase

/-- unregisterEntry preserves I1 unconditionally. -/
theorem I1_unregisterEntry (r : Registry ID NSID) (e : Entry ID NSID)
    (h : r.I1) : ((r.unregisterEntry e).1).I1 := by
  unfold Registry.unregisterEntry
  split
  · rename_i x x2 hm hn
    split
    · rename_i hcond
      simp only [Bool.and_eq_true, decide_eq_true_eq] at hcond
      obtain ⟨hx, hx2⟩ := hcond
      rw [hx] at hm
      rw [hx2] at hn
      exact I1maps_erase h e hm hn
    · exact h
  · exact h
  · exact h

/-- A successful registerEntry leaves the entry registered under both of
its own keys. -/
theorem registered_of_registerEntry (r r' : Registry ID NSID)
    (e : Entry ID NSID) (rep : Bool) (h : r.registerEntry e rep = (r', true)) :
    r'.registered e := by
  unfold Registry.registerEntry at h
  split at h
  · simp at h
  · injection h with h1 h2
    subst h1
    exact ⟨mapInsert_self, mapInsert_self⟩

/-- One operation that avoids entry `E` leaves `E` registered. -/
theorem registered_applyOp (r : Registry ID NSID) (E : Entry ID NSID)
    (op : RegOp ID NSID) (hr : r.registered E) (hav : r.opAvoids E op) :
    (r.applyOp op).registered E := by
  cases op with
  | registerIfAbsent nsid f =>
    simp only [Registry.applyOp]
    unfold Registry.registerIfAbsent
    rcases hav with ⟨x, hx⟩ | ⟨h1, h2⟩
    · rw [hx]
      exact hr
    · cases hns : r.nsmap nsid with
      | some e => exact hr
      | none =>
        refine ⟨?_, ?_⟩
        · show mapInsert r.map (f ()).id (f ()) E.id = some E
          rw [mapInsert_ne (Ne.symm h1)]
          exact hr.1
        · show mapInsert r.nsmap (f ()).nsid (f ()) E.nsid = some E
          rw [mapInsert_ne (Ne.symm h2)]
          exact hr.2
  | registerEntry e rep =>
    simp only [Registry.applyOp]
    unfold Registry.registerEntry
    obtain ⟨h1, h2⟩ := hav
    split
    · exact hr
    · refine ⟨?_, ?_⟩
      · show mapInsert r.map e.id e E.id = some E
        rw [mapInsert_ne (Ne.symm h1)]
        exact hr.1
      · show mapInsert r.nsmap e.nsid e E.nsid = some E
        rw [mapInsert_ne (Ne.symm h2)]
        exact hr.2
  | unregisterEntryByID i =>
    simp only [Registry.applyOp]
    unfold Registry.unregisterEntryByID
    obtain ⟨h1, h2⟩ := hav
    split
    · exact hr
    · rename_i entry hmap
      split
      · exact hr
      · refine ⟨?_, ?_⟩
        · show mapErase r.map i E.id = some E
          rw [mapErase_ne (Ne.symm h1)]
          exact hr.1
        · show mapErase r.nsmap entry.nsid E.nsid = some E
          have hne : entry.nsid ≠ E.nsid :=
            h2 entry (by rw [Option.mem_def]; exact hmap)
          rw [mapErase_ne (Ne.symm hne)]
          exact hr.2
  | unregisterEntryByNSID n =>
    simp only [Registry.applyOp]
    unfold Registry.unregisterEntryByNSID
    obtain ⟨h1, h2⟩ := hav
    split
    · exact hr
    · rename_i entry hns
      split
      · exact hr
      · refine ⟨?_, ?_⟩
        · show mapErase r.map entry.id E.id = some E
          have hne : entry.id ≠ E.id :=
            h2 entry (by rw [Option.mem_def]; exact hns)
          rw [mapErase_ne (Ne.symm hne)]
          exact hr.1
        · show mapErase r.nsmap n E.nsid = some E
          rw [mapErase_ne (Ne.symm h1)]
          exact hr.2
  | unregisterEntry e =>
    simp only [Registry.applyOp]
    unfold Registry.unregisterEntry
    split
    · rename_i x x2 hm hn
      split
      · rename_i hcond
        simp only [Bool.and_eq_true, decide_eq_true_eq] at hcond
        obtain ⟨hx, hx2⟩ := hcond
        rw [hx] at hm
        rw [hx2] at hn
        have hid : e.id ≠ E.id := by
          intro hEq
          rw [hEq, hr.1] at hm
          injection hm with h'
          exact hav h'.symm
        have hnsid : e.nsid ≠ E.nsid := by
          intro hEq
          rw [hEq, hr.2] at hn
          injection hn with h'
          exact hav h'.symm
        refine ⟨?_, ?_⟩
        · show mapErase r.map e.id E.id = some E
          rw [mapErase_ne (Ne.symm hid)]
          exact hr.1
        · show mapErase r.nsmap e.nsid E.nsid = some E
          rw [mapErase_ne (Ne.symm hnsid)]
          exact hr.2
      · exact hr
    · exact hr
    · exact hr

/-- A sequence of operations each avoiding `E` leaves `E` registered. -/
theorem registered_applyOps (E : Entry ID NSID) :
    ∀ (ops : List (RegOp ID NSID)) (r : Registry ID NSID),
      r.registered E → Registry.opsAvoid E r ops →
      (ops.foldl Registry.applyOp r).registered E := by
  intro ops
  induction ops with
  | nil => intro r hr _; exact hr
  | cons op ops ih =>
    intro r hr hav
    obtain ⟨h1, h2⟩ := hav
    exact ih (r.applyOp op) (registered_applyOp r E op hr h1) h2

/-- When the key is already present, a batch of registerIfAbsent calls
returns the registered handle to every caller, invokes no factory, and
leaves the state untouched. -/
theorem runCreates_found (r : Registry ID NSID) (nsid : NSID)
    (e : Entry ID NSID) (h : r.nsmap nsid = some e) :
    ∀ fs, r.runCreates nsid fs = (r, fs.map fun _ => (e, false)) := by
  intro fs
  induction fs with
  | nil => rfl
  | cons f fs ih =>
    simp only [Registry.runCreates, Registry.registerIfAbsent, h]
    rw [ih]
    simp

end OpLemmas

section RegisterIfAbsentLemmas

variable {ID NSID : Type} [DecidableEq ID] [DecidableEq NSID]

/-- When the namespace key is already present, registerIfAbsent returns
the registered handle without invoking the factory and without touching
the state. -/
theorem registerIfAbsent_found (r : Registry ID NSID) (nsid : NSID)
    (e : Entry ID NSID) (f : Unit → Entry ID NSID)
    (h : r.nsmap nsid = some e) :
    r.registerIfAbsent nsid f = (r, e, false) := by
  unfold Registry.registerIfAbsent
  rw [h]

/-- When the namespace key is absent, registerIfAbsent invokes the
factory once and inserts its entry into both maps under the entry's own
keys. -/
theorem registerIfAbsent_creates (r : Registry ID NSID) (nsid : NSID)
    (f : Unit → Entry ID NSID) (h : r.nsmap nsid = none) :
    r.registerIfAbsent nsid f =
      ({ r with
         registeringWithLockHeld := false,
         map := mapInsert r.map (f ()).id (f ()),
         nsmap := mapInsert r.nsmap (f ()).nsid (f ()) },
       f (), true) := by
  unfold Registry.registerIfAbsent
  rw [h]

end RegisterIfAbsentLemmas

section Claims

variable {ID NSID : Type} [DecidableEq ID] [DecidableEq NSID]

/-- Claim C3: for every state and every key, removeByInternalID and
removeByNamespaceID either erase the found entry's entries from both
mappings and return true, or (key absent, or the cross-derived key not
found) return false leaving both mappings completely unchanged; and
starting from an index-consistent state no call leaves an entity
findable by one key but not the other (I1 still holds afterwards). -/
theorem registry_remove_by_key_all_or_nothing
    (r : Registry ID NSID) (i : ID) (n : NSID) :
    ((∃ e, r.map i = some e ∧ (∃ x, r.nsmap e.nsid = some x) ∧
        r.unregisterEntryByID i =
          ({ r with map := mapErase r.map i, nsmap := mapErase r.nsmap e.nsid },
           true)) ∨
      r.unregisterEntryByID i = (r, false)) ∧
    ((∃ e, r.nsmap n = some e ∧ (∃ x, r.map e.id = some x) ∧
        r.unregisterEntryByNSID n =
          ({ r with map := mapErase r.map e.id, nsmap := mapErase r.nsmap n },
           true)) ∨
      r.unregisterEntryByNSID n = (r, false)) ∧
    (r.I1 → (r.unregisterEntryByID i).1.I1 ∧ (r.unregisterEntryByNSID n).1.I1) := by
  refine ⟨?_, ?_, ?_⟩
  · unfold Registry.unregisterEntryByID
    split
    · right
      rfl
    · rename_i entry hm
      split
      · right
        rfl
      · rename_i x hn
        left
        exact ⟨entry, hm, ⟨x, hn⟩, rfl⟩
  · unfold Registry.unregisterEntryByNSID
    split
    · right
      rfl
    · rename_i entry hn
      split
      · right
        rfl
      · rename_i x hm
        left
        exact ⟨entry, hn, ⟨x, hm⟩, rfl⟩
  · intro h
    exact ⟨I1_unregisterEntryByID r i h, I1_unregisterEntryByNSID r n h⟩

/-- Witness for C3 at a concrete state: the registry holding exactly
`entA` satisfies I1, and both removals keep I1. -/
theorem registry_remove_by_key_all_or_nothing_witness :
    regA.I1 ∧ (regA.unregisterEntryByID 1).1.I1 ∧ (regA.unregisterEntryByNSID 2).1.I1 := by
  refine ⟨by decide, ?_⟩
  have h := (registry_remove_by_key_all_or_nothing regA 1 2).2.2 (by decide)
  exact h

/-- Claim C4: remove(E) succeeds and erases E's entries from both
mappings iff both keys are present and the registered handle at each key
is pointer-identical to E; otherwise it returns false and leaves both
mappings unchanged. -/
theorem registry_unregisterEntry_identity_checked
    (r : Registry ID NSID) (E : Entry ID NSID) :
    (r.map E.id = some E ∧ r.nsmap E.nsid = some E →
      r.unregisterEntry E =
        ({ r with map := mapErase r.map E.id, nsmap := mapErase r.nsmap E.nsid },
         true)) ∧
    (¬(r.map E.id = some E ∧ r.nsmap E.nsid = some E) →
      r.unregisterEntry E = (r, false)) := by
  constructor
  · rintro ⟨h1, h2⟩
    unfold Registry.unregisterEntry
    rw [h1, h2]
    simp
  · intro hneg
    unfold Registry.unregisterEntry
    split
    · rename_i x x2 hm hn
      rw [if_neg]
      intro hcond
      simp only [Bool.and_eq_true, decide_eq_true_eq] at hcond
      obtain ⟨hx, hx2⟩ := hcond
      rw [hx] at hm
      rw [hx2] at hn
      exact hneg ⟨hm, hn⟩
    · rfl
    · rfl

/-- Witness for C4: in the registry holding exactly `entA`, removing
`entA` succeeds, and removing the identity-distinct `entB` fails with no
mutation. -/
theorem registry_unregisterEntry_identity_checked_witness :
    ((regA.map entA.id = some entA ∧ regA.nsmap entA.nsid = some entA) ∧
      regA.unregisterEntry entA =
        ({ regA with
           map := mapErase regA.map entA.id,
           nsmap := mapErase regA.nsmap entA.nsid }, true)) ∧
    regA.unregisterEntry entB = (regA, false) := by
  constructor
  · refine ⟨by decide, ?_⟩
    exact (registry_unregisterEntry_identity_checked regA entA).1 (by decide)
  · exact (registry_unregisterEntry_identity_checked regA entB).2 (by decide)

/-- Claim C5: insert with allowReplace = false fails without mutation
whenever either of the candidate's keys is already registered, and
inserts into both mappings and succeeds when neither key is taken. -/
theorem registry_registerEntry_collision_rejection
    (r : Registry ID NSID) (e : Entry ID NSID) :
    ((r.map e.id).isSome ∨ (r.nsmap e.nsid).isSome →
      r.registerEntry e false = (r, false)) ∧
    (r.map e.id = none ∧ r.nsmap e.nsid = none →
      r.registerEntry e false =
        ({ r with map := mapInsert r.map e.id e, nsmap := mapInsert r.nsmap e.nsid e },
         true)) := by
  constructor
  · intro h
    unfold Registry.registerEntry
    rw [if_pos]
    simp only [Bool.not_false, Bool.true_and, Bool.or_eq_true]
    exact h
  · rintro ⟨h1, h2⟩
    unfold Registry.registerEntry
    rw [if_neg]
    simp [h1, h2]

/-- Witness for C5, the spec's Scenario B: with A{1,2} registered,
inserting B{1,0} (same internal ID, different namespace ID) with
allowReplace = false fails and the registry is unchanged; inserting into
the empty registry succeeds. -/
theorem registry_registerEntry_collision_rejection_witness :
    regA.registerEntry entB5 false = (regA, false) ∧
    (emptyReg.map entA.id = none ∧ emptyReg.nsmap entA.nsid = none) ∧
    emptyReg.registerEntry entA false =
      ({ emptyReg with
         map := mapInsert emptyReg.map entA.id entA,
         nsmap := mapInsert emptyReg.nsmap entA.nsid entA }, true) := by
  refine ⟨?_, by decide, ?_⟩
  · exact (registry_registerEntry_collision_rejection regA entB5).1 (by decide)
  · exact (registry_registerEntry_collision_rejection emptyReg entA).2 (by decide)

/-- Counterexample to Claim C1 as stated: the registry holding exactly
A{id 1, nsid 2} satisfies I1, and insert(B{id 2, nsid 2},
allowReplace = true) succeeds, yet the resulting state violates I1: A is
still registered under internal ID 1 while the namespace slot for A's
namespace ID 2 now holds B. -/
theorem registry_I1_broken_by_partial_replace :
    regA.I1 ∧ (regA.registerEntry entB true).2 = true ∧
    ¬(regA.registerEntry entB true).1.I1 := by
  decide

/-- Claim C1 (amended): starting from any I1 state, I1 is preserved by
createIfAbsent whenever the factory's entry carries the requested
namespace ID and an unregistered internal ID, by insert with
allowReplace = false, by removeByInternalID, removeByNamespaceID and
remove unconditionally, and by insert with allowReplace = true whenever
the new entry does not partially collide with a registered entry (any
entry under its internal ID shares its namespace ID and vice versa). -/
theorem registry_I1_preservation (r : Registry ID NSID) (h : r.I1) :
    (∀ (nsid : NSID) (f : Unit → Entry ID NSID),
        (f ()).nsid = nsid → r.map (f ()).id = none →
        ((r.registerIfAbsent nsid f).1).I1) ∧
    (∀ e, ((r.registerEntry e false).1).I1) ∧
    (∀ e, (∀ x ∈ r.map e.id, x.nsid = e.nsid) →
        (∀ x ∈ r.nsmap e.nsid, x.id = e.id) →
        ((r.registerEntry e true).1).I1) ∧
    (∀ i, ((r.unregisterEntryByID i).1).I1) ∧
    (∀ n, ((r.unregisterEntryByNSID n).1).I1) ∧
    (∀ e, ((r.unregisterEntry e).1).I1) :=
  ⟨fun nsid f h1 h2 => I1_registerIfAbsent r nsid f h h1 h2,
   fun e => I1_registerEntry_false r e h,
   fun e h1 h2 => I1_registerEntry_true r e h h1 h2,
   fun i => I1_unregisterEntryByID r i h,
   fun n => I1_unregisterEntryByNSID r n h,
   fun e => I1_unregisterEntry r e h⟩

/-- Witness for the amended C1: the registry holding exactly `entA`
satisfies I1, and removal by internal ID 1 keeps I1. -/
theorem registry_I1_preservation_witness :
    regA.I1 ∧ (regA.unregisterEntryByID 1).1.I1 :=
  ⟨by decide, (registry_I1_preservation regA (by decide)).2.2.2.1 1⟩

/-- Claim C2: with the exclusive lock serialising whole operations, any
batch of createIfAbsent calls for the same absent namespace key K (run
in any order, each factory producing an entry keyed by K) invokes
exactly one factory, and every caller receives a handle identity-equal
to the single created entry. -/
theorem registry_create_once_under_contention (r : Registry ID NSID)
    (nsid : NSID) (f0 : Unit → Entry ID NSID)
    (rest : List (Unit → Entry ID NSID))
    (habs : r.nsmap nsid = none) (h0 : (f0 ()).nsid = nsid)
    (hrest : ∀ f ∈ rest, ((f : Unit → Entry ID NSID) ()).nsid = nsid) :
    (r.runCreates nsid (f0 :: rest)).2.countP (fun p => p.2) = 1 ∧
    ∀ p ∈ (r.runCreates nsid (f0 :: rest)).2, p.1 = f0 () := by
  have hstep := registerIfAbsent_creates r nsid f0 habs
  have hfound : (mapInsert r.nsmap (f0 ()).nsid (f0 ())) nsid = some (f0 ()) := by
    rw [h0]
    exact mapInsert_self
  have h2 : (r.runCreates nsid (f0 :: rest)).2 =
      (f0 (), true) :: rest.map (fun _ => (f0 (), false)) := by
    simp only [Registry.runCreates]
    rw [hstep]
    rw [runCreates_found _ nsid (f0 ()) hfound rest]
  rw [h2]
  constructor
  · simp [List.countP_cons, List.countP_map, Function.comp]
  · intro p hp
    rcases List.mem_cons.mp hp with hp | hp
    · rw [hp]
    · rcases List.mem_map.mp hp with ⟨a, _, hEq⟩
      rw [← hEq]

/-- Witness for C2: two distinct factories racing for the absent key 0
of the empty registry: one factory invocation, both callers get the
first factory's entry. -/
theorem registry_create_once_under_contention_witness :
    (emptyReg.runCreates 0 [fac0, fac1]).2.countP (fun p => p.2) = 1 ∧
    ∀ p ∈ (emptyReg.runCreates 0 [fac0, fac1]).2, p.1 = fac0 () := by
  refine registry_create_once_under_contention emptyReg 0 fac0 [fac1]
    (by decide) (by decide) ?_
  intro f hf
  rw [List.mem_singleton.mp hf]
  decide

/-- Claim C6: after any successful insert of entry E, both lookups
return a handle identity-equal to E, and they still do after every
subsequent sequence of registry operations none of which targets E
(i.e. until E itself is unregistered or displaced). Stated over a
common key type, where the source's lookupEntryByNSID compiles. -/
theorem registry_dual_index_agreement {K : Type} [DecidableEq K]
    (r r' : Registry K K) (E : Entry K K) (rep : Bool)
    (hins : r.registerEntry E rep = (r', true))
    (ops : List (RegOp K K)) (hops : Registry.opsAvoid E r' ops) :
    r'.lookupEntryByID E.id = some E ∧
    r'.lookupEntryByNSID E.nsid = some E ∧
    (ops.foldl Registry.applyOp r').lookupEntryByID E.id = some E ∧
    (ops.foldl Registry.applyOp r').lookupEntryByNSID E.nsid = some E := by
  have h1 : r'.registered E := registered_of_registerEntry r r' E rep hins
  have h2 := registered_applyOps E ops r' h1 hops
  exact ⟨h1.1, h1.2, h2.1, h2.2⟩

/-- Witness for C6: insert `entA` into the empty registry, then run an
unrelated removal; both lookups still return `entA`. -/
theorem registry_dual_index_agreement_witness :
    ((emptyReg.registerEntry entA false).1.lookupEntryByID entA.id = some entA) ∧
    (([RegOp.unregisterEntryByID 0].foldl Registry.applyOp
        (emptyReg.registerEntry entA false).1).lookupEntryByNSID entA.nsid = some entA) := by
  have h := registry_dual_index_agreement emptyReg
    (emptyReg.registerEntry entA false).1 entA false rfl
    [RegOp.unregisterEntryByID 0]
    ⟨⟨by decide, by intro x hx; rw [Option.mem_def] at hx; cases hx⟩, trivial⟩
  exact ⟨h.1, h.2.2.2⟩

/-- Claim C9: when the create path runs and the factory returns an entry
whose own namespace ID differs from the requested key, the entry is
inserted under its own two IDs, the requested key remains absent from
the namespace mapping, and a subsequent createIfAbsent for the same
requested key invokes its factory again. -/
theorem registry_registerIfAbsent_mismatch (r : Registry ID NSID)
    (nsid : NSID) (f : Unit → Entry ID NSID)
    (habs : r.nsmap nsid = none) (hmis : (f ()).nsid ≠ nsid) :
    (r.registerIfAbsent nsid f).2.1 = f () ∧
    (r.registerIfAbsent nsid f).2.2 = true ∧
    (r.registerIfAbsent nsid f).1.map (f ()).id = some (f ()) ∧
    (r.registerIfAbsent nsid f).1.nsmap (f ()).nsid = some (f ()) ∧
    (r.registerIfAbsent nsid f).1.nsmap nsid = none ∧
    ∀ f2 : Unit → Entry ID NSID,
      ((r.registerIfAbsent nsid f).1.registerIfAbsent nsid f2).2.2 = true := by
  rw [registerIfAbsent_creates r nsid f habs]
  have habs2 : mapInsert r.nsmap (f ()).nsid (f ()) nsid = none := by
    rw [mapInsert_ne (Ne.symm hmis)]
    exact habs
  refine ⟨rfl, rfl, mapInsert_self, mapInsert_self, habs2, ?_⟩
  intro f2
  rw [registerIfAbsent_creates _ nsid f2 habs2]

/-- Witness for C9: request key 1 of the empty registry with a factory
whose entry carries namespace ID 0. -/
theorem registry_registerIfAbsent_mismatch_witness :
    (emptyReg.registerIfAbsent 1 fac0).1.nsmap 1 = none ∧
    ((emptyReg.registerIfAbsent 1 fac0).1.registerIfAbsent 1 fac1).2.2 = true := by
  have h := registry_registerIfAbsent_mismatch emptyReg 1 fac0 (by decide) (by decide)
  exact ⟨h.2.2.2.2.1, h.2.2.2.2.2 fac1⟩

/-- Claim C10: createIfAbsent dereferences the factory's result with no
null check; under the precondition that the factory returns a non-null
handle the error branch is unreachable and the call succeeds with no
further check on the returned entry, while a null factory result on the
create path reaches the unguarded dereference. -/
theorem registry_registerIfAbsent_nonnull_precondition (r : Registry ID NSID)
    (nsid : NSID) (f : Unit → Option (Entry ID NSID)) :
    (∀ e, f () = some e → (r.registerIfAbsentN nsid f).isSome = true) ∧
    (r.nsmap nsid = none → f () = none → r.registerIfAbsentN nsid f = none) ∧
    (∀ e, r.nsmap nsid = none → f () = some e →
      r.registerIfAbsentN nsid f =
        some ({ r with
                registeringWithLockHeld := false,
                map := mapInsert r.map e.id e,
                nsmap := mapInsert r.nsmap e.nsid e }, e)) := by
  refine ⟨?_, ?_, ?_⟩
  · intro e hf
    unfold Registry.registerIfAbsentN
    cases hm : r.nsmap nsid with
    | some x => rfl
    | none =>
      rw [hf]
      rfl
  · intro h1 h2
    unfold Registry.registerIfAbsentN
    rw [h1, h2]
  · intro e h1 h2
    unfold Registry.registerIfAbsentN
    rw [h1, h2]

/-- Witness for C10: on the empty registry, a non-null factory result
succeeds (for an arbitrary entry, nothing else checked), and a null
factory result reaches the error branch. -/
theorem registry_registerIfAbsent_nonnull_precondition_witness :
    (emptyReg.registerIfAbsentN 0 facSome).isSome = true ∧
    emptyReg.registerIfAbsentN 0 facNull = none := by
  refine ⟨?_, ?_⟩
  · exact (registry_registerIfAbsent_nonnull_precondition emptyReg 0 facSome).1 ⟨4, 0, 0⟩ rfl
  · exact (registry_registerIfAbsent_nonnull_precondition emptyReg 0 facNull).2.1 rfl rfl

/-- Claim C7: the spec's namespace lookup accepts its argument at the
namespace-ID type for entity types with independent key types; the
source instead declares the parameter at the internal-ID type
(registry.hpp line 165), so the faithful embedding only exists when the
two key types coincide, where it agrees with the `_nsmap` find. The
intended lookup behaves as specified at independent key types: it
returns the handle registered under n, or an empty result. -/
theorem registry_lookupEntryByNSID_keytype :
    (∀ (K : Type) (_ : DecidableEq K) (r : Registry K K) (n : K),
        r.lookupEntryByNSID n = r.nsmap n) ∧
    (∀ (A B : Type) (_ : DecidableEq B) (r : Registry A B) (n : B),
        r.lookupEntryByNSIDIntended n = r.nsmap n) ∧
    Registry.lookupEntryByNSIDIntended regC7 1 = some entC7 ∧
    Registry.lookupEntryByNSIDIntended regC7 0 = none :=
  ⟨fun _ _ _ _ => rfl, fun _ _ _ _ _ => rfl, rfl, rfl⟩

/-- Claim C8: evaluation at the failing input. On a fresh thread a
lookup acquires the shared section; when createIfAbsent's factory exits
abnormally on the create path, the exception propagates and the
thread-local `_registeringWithLockHeld` flag stays true, so subsequent
lookups on that thread skip the shared section — contradicting the
claim's "once the call has finished (including when the factory exits
abnormally), the flag is false again". A normally returning factory
does reset the flag. -/
theorem registry_reentrancy_flag_leak :
    emptyReg.lookupAcquiresShared = true ∧
    (emptyReg.registerIfAbsentE 0 facThrow).2 = Except.error () ∧
    (emptyReg.registerIfAbsentE 0 facThrow).1.registeringWithLockHeld = true ∧
    (emptyReg.registerIfAbsentE 0 facThrow).1.lookupAcquiresShared = false ∧
    (emptyReg.registerIfAbsentE 0 facOk).1.registeringWithLockHeld = false ∧
    (emptyReg.registerIfAbsentE 0 facOk).1.lookupAcquiresShared = true :=
  ⟨rfl, rfl, rfl, rfl, rfl, rfl⟩

end Claims

end DarlingServer
